import Mathlib

/-!
# Verification of the ai-services search/prediction/analytics core

Shallow embedding of the search subsystem:
* `SearchEngine.search` (src/ai_services_api/services/search/search_engine.py)
* the `/predict` and `/` (search) endpoints
  (src/ai_services_api/services/search/app/endpoints/search.py)
* the analytics operations of `DatabaseManager`
  (src/ai_services_api/services/search/database_manager.py)

Python exceptions are modelled with `Except String`; the outcome of an
external call (database fetch, engine fetch) is passed in as an
`Except String` value.  SQL `UPDATE` statements are modelled as atomic
transitions on an explicit table state, one transition per `execute` call
(the code's `execute` commits each statement on its own).
-/

namespace AiServices

/-- Python's `str.lower()`, modelled character-wise (`Char.toLower` on each
character; the queries involved are plain text, for which per-character
lowercasing is exact). -/
def pyLower (s : String) : String := ⟨s.data.map Char.toLower⟩

/-! ## Query-prediction merge (endpoints/search.py, lines 54-71)

The endpoint keeps a list `all_predictions` and a set `seen` of lower-cased
strings.  Database predictions are appended first, each one only if its
lower-cased form is not in `seen`; engine predictions are appended after,
each one only if its lower-cased form is not in `seen` and the list is still
shorter than `limit`; the final list is truncated to `limit`. -/

/-- The mutable state of the merge loop: `all_predictions` and `seen`
(the Python `set` of lower-cased strings is modelled as a list with `∈`). -/
structure MergeState where
  all_predictions : List String
  seen : List String
deriving Repr, DecidableEq

/-- One iteration of the first loop (lines 59-62): append a database
prediction unless its lower-cased form was already seen. -/
def addDbPred (st : MergeState) (pred : String) : MergeState :=
  if pyLower pred ∈ st.seen then st
  else { all_predictions := st.all_predictions ++ [pred],
         seen := st.seen ++ [pyLower pred] }

/-- One iteration of the second loop (lines 65-68): append an engine
prediction if its lower-cased form was not seen and the list is still
shorter than `limit`. -/
def addSearchPred (limit : Nat) (st : MergeState) (pred : String) : MergeState :=
  if pyLower pred ∉ st.seen ∧ st.all_predictions.length < limit then
    { all_predictions := st.all_predictions ++ [pred],
      seen := st.seen ++ [pyLower pred] }
  else st

/-- Lines 54-71 of `predict_queries`: merge database predictions and search
engine predictions, then truncate to `limit` (`all_predictions[:limit]`). -/
def mergePredictions (db_predictions search_predictions : List String)
    (limit : Nat) : List String :=
  let st1 := db_predictions.foldl addDbPred ⟨[], []⟩
  let st2 := search_predictions.foldl (addSearchPred limit) st1
  st2.all_predictions.take limit

/-! ## The `/predict` endpoint (endpoints/search.py, lines 25-75)

The outcomes of the two external calls are parameters:
`dbFetch` is the outcome of `db_manager.get_matching_queries(...)` and
`engineFetch` the outcome of `search_engine.predict_queries(...)`.
A raised exception in the `dbFetch` position propagates to the outer
`except` (line 73) and becomes an HTTP 500; a raised exception in the
`engineFetch` position is caught by the inner `except` (line 51) and the
engine contribution stays `[]`. -/

def predict_queries (queryText : String) (limit : Nat)
    (dbFetch : Except String (List String))
    (engineFetch : Except String (List String)) :
    Except String (List String) :=
  if queryText.length < 2 then .ok []
  else
    match dbFetch with
    | .error e => .error ("HTTP 500: " ++ e)
    | .ok db_predictions =>
      let search_predictions :=
        match engineFetch with
        | .error _ => []
        | .ok preds => preds
      .ok (mergePredictions db_predictions search_predictions limit)

/-! ## Method tables

The names of the methods actually defined on `DatabaseManager`
(database_manager.py) and on `SearchEngine` (search_engine.py), used to
settle the `AttributeError` claim about `get_matching_queries` and
`predict_queries`. -/

def databaseManagerMethods : List String :=
  ["__init__", "execute", "add_expert", "add_publication", "add_author",
   "add_tag", "link_author_publication", "link_publication_tag",
   "update_expert", "get_expert_by_name", "get_recent_queries",
   "get_term_frequencies", "get_popular_queries", "get_user_queries",
   "add_query", "record_search_analytics", "record_expert_search",
   "record_query_prediction", "start_search_session",
   "update_search_session", "record_click", "get_search_metrics",
   "get_expert_metrics", "get_performance_metrics", "close", "__del__"]

def searchEngineMethods : List String :=
  ["__init__", "search", "get_summary_by_title", "search_by_title"]

end AiServices

namespace AiServices

/-! ## Basic lemmas about the merge -/

/-- The merge loops only ever append to `all_predictions` and `seen`. -/
theorem foldl_addDbPred_extends (db : List String) (st : MergeState) :
    ∃ extra seenExtra,
      (db.foldl addDbPred st).all_predictions = st.all_predictions ++ extra ∧
      (db.foldl addDbPred st).seen = st.seen ++ seenExtra ∧
      extra.Sublist db := by
  induction db generalizing st with
  | nil => exact ⟨[], [], by simp, by simp, List.Sublist.refl []⟩
  | cons p rest ih =>
    simp only [List.foldl_cons]
    by_cases hseen : pyLower p ∈ st.seen
    · have hstep : addDbPred st p = st := by simp [addDbPred, hseen]
      rw [hstep]
      obtain ⟨extra, seenExtra, h1, h2, h3⟩ := ih st
      exact ⟨extra, seenExtra, h1, h2, h3.cons p⟩
    · have hstep : addDbPred st p =
          { all_predictions := st.all_predictions ++ [p],
            seen := st.seen ++ [pyLower p] } := by
        simp [addDbPred, hseen]
      rw [hstep]
      obtain ⟨extra, seenExtra, h1, h2, h3⟩ :=
        ih { all_predictions := st.all_predictions ++ [p],
             seen := st.seen ++ [pyLower p] }
      exact ⟨p :: extra, pyLower p :: seenExtra, by simpa using h1,
        by simpa using h2, h3.cons₂ p⟩

theorem foldl_addSearchPred_extends (eng : List String) (limit : Nat)
    (st : MergeState) :
    ∃ extra seenExtra,
      (eng.foldl (addSearchPred limit) st).all_predictions
        = st.all_predictions ++ extra ∧
      (eng.foldl (addSearchPred limit) st).seen = st.seen ++ seenExtra ∧
      extra.Sublist eng := by
  induction eng generalizing st with
  | nil => exact ⟨[], [], by simp, by simp, List.Sublist.refl []⟩
  | cons p rest ih =>
    simp only [List.foldl_cons]
    by_cases hc : pyLower p ∉ st.seen ∧ st.all_predictions.length < limit
    · have hstep : addSearchPred limit st p =
          { all_predictions := st.all_predictions ++ [p],
            seen := st.seen ++ [pyLower p] } := by
        unfold addSearchPred
        rw [if_pos hc]
      rw [hstep]
      obtain ⟨extra, seenExtra, h1, h2, h3⟩ :=
        ih { all_predictions := st.all_predictions ++ [p],
             seen := st.seen ++ [pyLower p] }
      exact ⟨p :: extra, pyLower p :: seenExtra, by simpa using h1,
        by simpa using h2, h3.cons₂ p⟩
    · have hstep : addSearchPred limit st p = st := by
        unfold addSearchPred
        rw [if_neg hc]
      rw [hstep]
      obtain ⟨extra, seenExtra, h1, h2, h3⟩ := ih st
      exact ⟨extra, seenExtra, h1, h2, h3.cons p⟩

/-! ## One-list reformulation of the merge

In the code, `seen` is maintained side by side with `all_predictions` and
always equals the lower-cased image of `all_predictions` (an element is
added to `seen` exactly when it is appended to the list).  The following
one-list step functions make that invariant explicit; they are the vehicle
for comparing the code with the spec's description of the merge. -/

/-- One database-phase step, phrased on the output list alone: append the
prediction unless its lower-cased form already occurs (lower-cased) in the
list. -/
def dbStep (acc : List String) (p : String) : List String :=
  if pyLower p ∈ acc.map pyLower then acc else acc ++ [p]

/-- One engine-phase step, phrased on the output list alone: append the
prediction if its lower-cased form is new and the list is still shorter
than `limit`. -/
def engStep (limit : Nat) (acc : List String) (p : String) : List String :=
  if pyLower p ∉ acc.map pyLower ∧ acc.length < limit then acc ++ [p]
  else acc

/-- Modelled from the spec's words for the merge, read literally:
"DB matches are appended first, in their returned order" (all of them,
unconditionally); "engine matches are appended after, skipping any whose
lower-cased form already appears", stopping at `limit`; "truncate final
list to `limit`". -/
def mergeClaimedSpec (db_predictions search_predictions : List String)
    (limit : Nat) : List String :=
  (search_predictions.foldl (engStep limit) db_predictions).take limit

/-- The merge as the code actually behaves: the database phase also skips a
prediction whose lower-cased form was already appended, the engine phase
skips seen forms and stops appending at `limit`, and the final list is
truncated to `limit`. -/
def mergeAmendedSpec (db_predictions search_predictions : List String)
    (limit : Nat) : List String :=
  (search_predictions.foldl (engStep limit)
    (db_predictions.foldl dbStep [])).take limit

/-- `seen` tracks the lower-cased image of `all_predictions` through the
database phase, and the database phase equals its one-list form. -/
theorem foldl_addDbPred_eq (db : List String) (st : MergeState)
    (h : st.seen = st.all_predictions.map pyLower) :
    (db.foldl addDbPred st).all_predictions
        = db.foldl dbStep st.all_predictions ∧
    (db.foldl addDbPred st).seen
        = ((db.foldl addDbPred st).all_predictions).map pyLower := by
  induction db generalizing st with
  | nil => exact ⟨rfl, h⟩
  | cons p rest ih =>
    simp only [List.foldl_cons]
    by_cases hseen : pyLower p ∈ st.all_predictions.map pyLower
    · have hstep : addDbPred st p = st := by
        unfold addDbPred
        rw [h, if_pos hseen]
      have hstep2 : dbStep st.all_predictions p = st.all_predictions := by
        unfold dbStep
        rw [if_pos hseen]
      rw [hstep, hstep2]
      exact ih st h
    · have hstep : addDbPred st p =
          { all_predictions := st.all_predictions ++ [p],
            seen := st.seen ++ [pyLower p] } := by
        unfold addDbPred
        rw [h, if_neg hseen]
      have hstep2 : dbStep st.all_predictions p = st.all_predictions ++ [p] := by
        unfold dbStep
        rw [if_neg hseen]
      rw [hstep, hstep2]
      exact ih _ (by simp [h])

/-- `seen` tracks the lower-cased image of `all_predictions` through the
engine phase, and the engine phase equals its one-list form. -/
theorem foldl_addSearchPred_eq (eng : List String) (limit : Nat)
    (st : MergeState)
    (h : st.seen = st.all_predictions.map pyLower) :
    (eng.foldl (addSearchPred limit) st).all_predictions
        = eng.foldl (engStep limit) st.all_predictions ∧
    (eng.foldl (addSearchPred limit) st).seen
        = ((eng.foldl (addSearchPred limit) st).all_predictions).map
            pyLower := by
  induction eng generalizing st with
  | nil => exact ⟨rfl, h⟩
  | cons p rest ih =>
    simp only [List.foldl_cons]
    by_cases hc : pyLower p ∉ st.all_predictions.map pyLower ∧
        st.all_predictions.length < limit
    · have hstep : addSearchPred limit st p =
          { all_predictions := st.all_predictions ++ [p],
            seen := st.seen ++ [pyLower p] } := by
        unfold addSearchPred
        rw [h, if_pos hc]
      have hstep2 : engStep limit st.all_predictions p
          = st.all_predictions ++ [p] := by
        unfold engStep
        rw [if_pos hc]
      rw [hstep, hstep2]
      exact ih _ (by simp [h])
    · have hstep : addSearchPred limit st p = st := by
        unfold addSearchPred
        rw [h, if_neg hc]
      have hstep2 : engStep limit st.all_predictions p
          = st.all_predictions := by
        unfold engStep
        rw [if_neg hc]
      rw [hstep, hstep2]
      exact ih st h

/-- The code's merge coincides with its one-list form. -/
theorem mergePredictions_eq_amended (db eng : List String) (limit : Nat) :
    mergePredictions db eng limit = mergeAmendedSpec db eng limit := by
  unfold mergePredictions mergeAmendedSpec
  obtain ⟨h1, h2⟩ := foldl_addDbPred_eq db ⟨[], []⟩ rfl
  obtain ⟨h3, _⟩ := foldl_addSearchPred_eq eng limit (db.foldl addDbPred ⟨[], []⟩) h2
  simp only []
  rw [h3, h1]

/-! ## Claims about the `/predict` endpoint -/

/-- C4 (counterexample): the claim says the merge "appends DB matches
first, in their returned order", i.e. unconditionally.  The code also
deduplicates the DB matches among themselves by lower-cased form: on DB
matches `["a", "A"]`, no engine matches and limit 5, the code returns
`["a"]` while the claim as stated yields `["a", "A"]`. -/
theorem predict_merge_counterexample :
    mergePredictions ["a", "A"] [] 5 = ["a"] ∧
    mergeClaimedSpec ["a", "A"] [] 5 = ["a", "A"] ∧
    mergePredictions ["a", "A"] [] 5 ≠ mergeClaimedSpec ["a", "A"] [] 5 := by
  refine ⟨by decide, by decide, ?_⟩
  decide

/-- C4 (amended): the merge appends DB matches first in their returned
order, skipping any whose lower-cased form was already seen (the dedup
applies to the DB phase as well), then appends engine predictions skipping
seen lower-cased forms and only while the list is shorter than `limit`,
and truncates the final list to `limit`, preserving the original casing of
the first-seen variant.  In particular, on DB matches
`["machine learning", "machine vision"]` and engine matches
`["Machine Learning Basics", "machine vision"]` with limit 5 the result is
`["machine learning", "machine vision", "Machine Learning Basics"]`, and a
case-different engine duplicate of a DB entry keeps the DB casing. -/
theorem predict_merge_amended (db eng : List String) (limit : Nat) :
    mergePredictions db eng limit = mergeAmendedSpec db eng limit ∧
    mergePredictions ["machine learning", "machine vision"]
        ["Machine Learning Basics", "machine vision"] 5
      = ["machine learning", "machine vision", "Machine Learning Basics"] ∧
    mergePredictions ["Foo"] ["foo"] 5 = ["Foo"] :=
  ⟨mergePredictions_eq_amended db eng limit, by decide, by decide⟩

/-- C5: for an input shorter than 2 characters, `predict` returns the
empty list immediately; the result does not depend on either prediction
source (neither source is consulted). -/
theorem predict_short_input_short_circuit (queryText : String) (limit : Nat)
    (dbFetch engineFetch : Except String (List String))
    (h : queryText.length < 2) :
    predict_queries queryText limit dbFetch engineFetch = .ok [] := by
  unfold predict_queries
  rw [if_pos h]

/-- C5 witness: `predict("x", 5)` returns `[]` even when both sources
would fail. -/
theorem predict_short_input_short_circuit_witness :
    ("x".length < 2) ∧
    predict_queries "x" 5 (.error "db down") (.error "engine down")
      = .ok [] :=
  ⟨by decide,
   predict_short_input_short_circuit "x" 5 (.error "db down")
     (.error "engine down") (by decide)⟩

/-- C6: for a query of length at least 2, a failing DB-side fetch aborts
the whole `predict` call with an HTTP 500 error (whatever the engine side
does), while a failing engine-side fetch is swallowed and the call
succeeds with the merge of the DB matches and an empty engine
contribution. -/
theorem predict_source_failure_asymmetry (queryText : String) (limit : Nat)
    (db engOk : List String) (e e' : String)
    (h : 2 ≤ queryText.length) :
    predict_queries queryText limit (.error e) (.ok engOk)
        = .error ("HTTP 500: " ++ e) ∧
    predict_queries queryText limit (.error e) (.error e')
        = .error ("HTTP 500: " ++ e) ∧
    predict_queries queryText limit (.ok db) (.error e')
        = .ok (mergePredictions db [] limit) := by
  simp only [predict_queries, if_neg (not_lt.mpr h)]
  exact ⟨trivial, trivial, trivial⟩

/-- C6 witness at a concrete query, DB result and failure messages. -/
theorem predict_source_failure_asymmetry_witness :
    (2 ≤ "ml".length) ∧
    (predict_queries "ml" 5 (.error "db down") (.ok ["a"])
        = .error ("HTTP 500: " ++ "db down") ∧
     predict_queries "ml" 5 (.error "db down") (.error "engine down")
        = .error ("HTTP 500: " ++ "db down") ∧
     predict_queries "ml" 5 (.ok ["a"]) (.error "engine down")
        = .ok (mergePredictions ["a"] [] 5)) :=
  ⟨by decide,
   predict_source_failure_asymmetry "ml" 5 ["a"] ["a"] "db down"
     "engine down" (by decide)⟩

/-- C2: `DatabaseManager` defines no method named `get_matching_queries`
(and `SearchEngine` defines no `predict_queries`), so for every query of
length at least 2 the required DB-side fetch of the `/predict` endpoint
raises `AttributeError`; the outer `except` surfaces it as an HTTP 500
error, whatever the engine-side source would have produced — the
merge/dedup logic after the DB fetch is never reached. -/
theorem predict_missing_db_method_http500 (queryText : String) (limit : Nat)
    (engineFetch : Except String (List String)) (e : String)
    (h : 2 ≤ queryText.length) :
    "get_matching_queries" ∉ databaseManagerMethods ∧
    "predict_queries" ∉ searchEngineMethods ∧
    predict_queries queryText limit
        (.error ("AttributeError: " ++ e)) engineFetch
      = .error ("HTTP 500: " ++ ("AttributeError: " ++ e)) := by
  refine ⟨by decide, by decide, ?_⟩
  unfold predict_queries
  rw [if_neg (not_lt.mpr h)]

/-- C2 witness at a concrete query, engine outcome and error message. -/
theorem predict_missing_db_method_http500_witness :
    (2 ≤ "machine".length) ∧
    ("get_matching_queries" ∉ databaseManagerMethods ∧
     "predict_queries" ∉ searchEngineMethods ∧
     predict_queries "machine" 5
         (.error ("AttributeError: " ++ "get_matching_queries"))
         (.ok ["engine suggestion"])
       = .error ("HTTP 500: "
           ++ ("AttributeError: " ++ "get_matching_queries"))) :=
  ⟨by decide,
   predict_missing_db_method_http500 "machine" 5 (.ok ["engine suggestion"])
     "get_matching_queries" (by decide)⟩

/-! ## SearchEngine.search (search_engine.py, lines 41-60)

`chunk_mapping` is the pickled ordinal→metadata dict, modelled as a map
`Int → Option Metadata`; Python raises `KeyError` on a missing key, which
is the `none` case.  `find_experts_by_domain` is the `ExpertsManager`
collaborator (experts_manager.py is not part of the sources; per the spec
it is an external collaborator returning a collaborator-ordered list).
The FAISS call `self.index.search(query_vector, k)` is external: its
output `zip(I[0], D[0])` is passed in as a list of (ordinal, distance)
pairs.  FAISS pads with the sentinel ordinal `-1` when `k` exceeds the
number of indexed vectors, and returns `k` pairwise-distinct in-range
ordinals when `k` does not. -/

/-- A document chunk's metadata: a Python dict with string keys. -/
abbrev Metadata := List (String × String)

/-- Python `dict.get(key, default)` on a metadata dict. -/
def metaGet (m : Metadata) (key dflt : String) : String :=
  match m.find? (fun kv => kv.1 == key) with
  | some kv => kv.2
  | none => dflt

/-- An expert as returned by the attribution collaborator (opaque here,
identified by id). -/
abbrev Expert := String

/-- A raw FAISS distance (its numeric value is only passed through). -/
abbrev Score := Int

/-- One entry of the list built by `SearchEngine.search`:
`{'metadata': ..., 'similarity_score': ..., 'experts': ...}`. -/
structure SearchResult where
  metadata : Metadata
  similarity_score : Score
  experts : List Expert
deriving Repr, DecidableEq

/-- The result loop of `SearchEngine.search` (lines 48-60): for each
(ordinal, distance) pair from the index, look the ordinal up in
`chunk_mapping` (`KeyError` if absent), read the chunk's domain with
default `' '`, attach the first 3 experts for that domain, and collect the
entries in index order. -/
def searchEngineSearch (chunk_mapping : Int → Option Metadata)
    (find_experts_by_domain : String → List Expert) :
    List (Int × Score) → Except String (List SearchResult)
  | [] => .ok []
  | (idx, score) :: rest =>
    match chunk_mapping idx with
    | none => .error "KeyError"
    | some md =>
      match searchEngineSearch chunk_mapping find_experts_by_domain rest with
      | .error e => .error e
      | .ok results =>
        .ok ({ metadata := md, similarity_score := score,
               experts := (find_experts_by_domain
                 (metaGet md "Domain" " ")).take 3 } :: results)

/-- The relation between an index pair and the result entry built from
it. -/
def ResultOf (chunk_mapping : Int → Option Metadata)
    (find_experts_by_domain : String → List Expert)
    (p : Int × Score) (r : SearchResult) : Prop :=
  chunk_mapping p.1 = some r.metadata ∧
  r.similarity_score = p.2 ∧
  r.experts = (find_experts_by_domain (metaGet r.metadata "Domain" " ")).take 3

/-- When every ordinal of the index output is present in the catalog, the
search succeeds and builds exactly one entry per pair, in order. -/
theorem searchEngineSearch_ok (chunk_mapping : Int → Option Metadata)
    (find_experts_by_domain : String → List Expert)
    (out : List (Int × Score))
    (hfound : ∀ p ∈ out, (chunk_mapping p.1).isSome) :
    ∃ results,
      searchEngineSearch chunk_mapping find_experts_by_domain out
        = .ok results ∧
      List.Forall₂ (ResultOf chunk_mapping find_experts_by_domain)
        out results := by
  induction out with
  | nil => exact ⟨[], rfl, List.Forall₂.nil⟩
  | cons p rest ih =>
    obtain ⟨md, hmd⟩ := Option.isSome_iff_exists.mp (hfound p (by simp))
    obtain ⟨rs, hrs, hf⟩ := ih (fun q hq => hfound q (by simp [hq]))
    obtain ⟨idx, score⟩ := p
    refine ⟨{ metadata := md, similarity_score := score,
              experts := (find_experts_by_domain
                (metaGet md "Domain" " ")).take 3 } :: rs, ?_, ?_⟩
    · simp only [searchEngineSearch, hmd, hrs]
    · exact List.Forall₂.cons ⟨hmd, rfl, rfl⟩ hf

/-- A member of the right side of a `Forall₂` is related to some member
of the left side. -/
theorem forall₂_exists_left {α β : Type} {R : α → β → Prop}
    {l₁ : List α} {l₂ : List β} (h : List.Forall₂ R l₁ l₂) {b : β}
    (hb : b ∈ l₂) : ∃ a ∈ l₁, R a b := by
  induction h with
  | nil => cases hb
  | cons hr _ ih =>
    rcases List.mem_cons.mp hb with hb | hb
    · exact ⟨_, by simp, hb ▸ hr⟩
    · obtain ⟨a, ha, har⟩ := ih hb
      exact ⟨a, by simp [ha], har⟩

/-- Distinct looked-up chunks give distinct result metadata. -/
theorem forall₂_metadata_nodup (chunk_mapping : Int → Option Metadata)
    (find_experts_by_domain : String → List Expert)
    (out : List (Int × Score)) (results : List SearchResult)
    (hf : List.Forall₂ (ResultOf chunk_mapping find_experts_by_domain)
      out results)
    (hnd : (out.map (fun p => chunk_mapping p.1)).Nodup) :
    (results.map SearchResult.metadata).Nodup := by
  induction hf with
  | nil => exact List.nodup_nil
  | @cons p r rest rs hr hf ih =>
    simp only [List.map_cons, List.nodup_cons] at hnd ⊢
    refine ⟨?_, ih hnd.2⟩
    intro hmem
    obtain ⟨m, hm, hmeq⟩ := List.mem_map.mp hmem
    obtain ⟨q, hq, hqr⟩ := forall₂_exists_left hf hm
    refine hnd.1 (List.mem_map.mpr ⟨q, hq, ?_⟩)
    rw [hqr.1, hr.1, hmeq]

/-- C3: if the vector index returns exactly `k` pairwise-distinct
in-range ordinals (the FAISS contract whenever `k` is at most the corpus
size `n`) and the catalog is ordinal-synchronized (every returned ordinal
resolves, distinct ordinals to distinct chunks), then `search` returns
exactly `k` results, built one-for-one in the index's return order, with
no duplicate chunk metadata, each carrying exactly the first 3 experts the
attributor returns for the chunk's domain. -/
theorem search_k_le_corpus_exact (chunk_mapping : Int → Option Metadata)
    (find_experts_by_domain : String → List Expert)
    (out : List (Int × Score)) (n k : Nat)
    (hk : k ≤ n)
    (hlen : out.length = k)
    (hrange : ∀ p ∈ out, 0 ≤ p.1 ∧ p.1 < (n : Int))
    (hfound : ∀ p ∈ out, (chunk_mapping p.1).isSome)
    (hchunks : (out.map (fun p => chunk_mapping p.1)).Nodup) :
    ∃ results,
      searchEngineSearch chunk_mapping find_experts_by_domain out
        = .ok results ∧
      results.length = k ∧
      List.Forall₂ (ResultOf chunk_mapping find_experts_by_domain)
        out results ∧
      (results.map SearchResult.metadata).Nodup ∧
      ∀ r ∈ results, r.experts
        = (find_experts_by_domain (metaGet r.metadata "Domain" " ")).take 3
        ∧ r.experts.length ≤ 3 := by
  obtain ⟨results, hok, hf⟩ :=
    searchEngineSearch_ok chunk_mapping find_experts_by_domain out hfound
  refine ⟨results, hok, by rw [← hf.length_eq, hlen], hf,
    forall₂_metadata_nodup _ _ _ _ hf hchunks, ?_⟩
  intro r hr
  obtain ⟨q, _, hqr⟩ := forall₂_exists_left hf hr
  refine ⟨hqr.2.2, ?_⟩
  rw [hqr.2.2]
  exact le_trans (List.length_take_le _ _) (le_refl _)

/-- C3 witness: a two-chunk catalog, an attributor returning four experts
for the domain `"physics"`, and an index output of two distinct valid
ordinals. -/
theorem search_k_le_corpus_exact_witness :
    (2 ≤ 2) ∧ ([((1 : Int), (5 : Score)), (0, 7)].length = 2) ∧
    (∀ p ∈ [((1 : Int), (5 : Score)), (0, 7)],
        0 ≤ p.1 ∧ p.1 < (2 : Int)) ∧
    ∃ results,
      searchEngineSearch
        (fun i => if i = 0 then
            some [("Domain", "physics"), ("Title", "t0")]
          else if i = 1 then some [("Title", "t1")] else none)
        (fun d => if d = "physics" then ["e1", "e2", "e3", "e4"] else [])
        [((1 : Int), (5 : Score)), (0, 7)]
        = .ok results ∧
      results.length = 2 ∧
      List.Forall₂ (ResultOf
        (fun i => if i = 0 then
            some [("Domain", "physics"), ("Title", "t0")]
          else if i = 1 then some [("Title", "t1")] else none)
        (fun d => if d = "physics" then ["e1", "e2", "e3", "e4"] else []))
        [((1 : Int), (5 : Score)), (0, 7)] results ∧
      (results.map SearchResult.metadata).Nodup ∧
      ∀ r ∈ results, r.experts
        = ((fun d => if d = "physics" then ["e1", "e2", "e3", "e4"] else [])
            (metaGet r.metadata "Domain" " ")).take 3
        ∧ r.experts.length ≤ 3 :=
  ⟨by decide, by decide, by decide,
   search_k_le_corpus_exact _ _ _ 2 2 (by decide) (by decide) (by decide)
     (by decide) (by decide)⟩

/-- C1 (counterexample): with a one-chunk corpus and `k = 2`, FAISS pads
its output with the sentinel ordinal `-1`; the code does not drop it —
the catalog lookup `chunk_mapping[-1]` raises `KeyError`, so no result
list at all is returned, rather than a list without the sentinel entries
of length below `k`. -/
theorem search_sentinel_counterexample :
    searchEngineSearch
        (fun i => if i = 0 then some [("Title", "doc0")] else none)
        (fun _ => []) [((0 : Int), (0 : Score)), (-1, 0)]
      = .error "KeyError" ∧
    ¬ ∃ results,
      searchEngineSearch
          (fun i => if i = 0 then some [("Title", "doc0")] else none)
          (fun _ => []) [((0 : Int), (0 : Score)), (-1, 0)]
        = .ok results := by
  refine ⟨rfl, ?_⟩
  rintro ⟨results, h⟩
  rw [show searchEngineSearch
      (fun i => if i = 0 then some [("Title", "doc0")] else none)
      (fun _ => []) [((0 : Int), (0 : Score)), (-1, 0)]
      = .error "KeyError" from rfl] at h
  exact Except.noConfusion h

/-- C1 (amended): whenever the index output contains an ordinal that is
absent from the catalog — in particular the sentinel `-1` that FAISS
emits when `k` exceeds the corpus size — `search` raises `KeyError`
instead of returning a result list. -/
theorem search_sentinel_keyerror (chunk_mapping : Int → Option Metadata)
    (find_experts_by_domain : String → List Expert)
    (out : List (Int × Score))
    (h : ∃ p ∈ out, chunk_mapping p.1 = none) :
    searchEngineSearch chunk_mapping find_experts_by_domain out
      = .error "KeyError" := by
  induction out with
  | nil => simp at h
  | cons p rest ih =>
    obtain ⟨q, hq, hnone⟩ := h
    obtain ⟨idx, score⟩ := p
    rcases List.mem_cons.mp hq with hq | hq
    · subst hq
      simp only [searchEngineSearch, hnone]
    · cases hmd : chunk_mapping idx with
      | none => simp only [searchEngineSearch, hmd]
      | some md =>
        have hrest := ih ⟨q, hq, hnone⟩
        simp only [searchEngineSearch, hmd, hrest]

/-- C1 witness: the amended behaviour at the concrete sentinel-padded
index output of the counterexample. -/
theorem search_sentinel_keyerror_witness :
    (∃ p ∈ [((0 : Int), (0 : Score)), (-1, 0)],
      (fun i => if i = 0 then some [("Title", "doc0")] else none) p.1
        = none) ∧
    searchEngineSearch
        (fun i => if i = 0 then some [("Title", "doc0")] else none)
        (fun _ => []) [((0 : Int), (0 : Score)), (-1, 0)]
      = .error "KeyError" :=
  ⟨by decide,
   search_sentinel_keyerror _ _ _ (by decide)⟩

/-! ## The `/` search endpoint (endpoints/search.py, lines 77-114)

The outcome of `search_engine.search(...)` and of
`db_manager.add_query(...)` are parameters.  `add_query` sits in its own
`try`/`except` (lines 91-99): its outcome is logged and never alters what
the endpoint returns. -/

/-- The formatted entry built at lines 101-108 (note the lower-case keys,
read with `dict.get(..., '')`). -/
structure FormattedResult where
  title : String
  abstract : String
  summary : String
  tags : String
  authors : String
  similarity_score : Score
deriving Repr, DecidableEq

/-- Lines 101-108: format one search result for the response. -/
def formatResult (r : SearchResult) : FormattedResult :=
  { title := metaGet r.metadata "title" "",
    abstract := metaGet r.metadata "abstract" "",
    summary := metaGet r.metadata "summary" "",
    tags := metaGet r.metadata "tags" "",
    authors := metaGet r.metadata "authors" "",
    similarity_score := r.similarity_score }

/-- The `/` search endpoint: a failing engine search becomes an HTTP 500;
the `add_query` history write is attempted, its outcome logged (bound and
ignored), and the formatted results are returned regardless. -/
def searchEndpoint (searchOutcome : Except String (List SearchResult))
    (addQueryOutcome : Except String (Option Int)) :
    Except String (List FormattedResult) :=
  match searchOutcome with
  | .error e => .error ("HTTP 500: " ++ e)
  | .ok results =>
    let _loggedOnly := addQueryOutcome
    .ok (results.map formatResult)

/-- C7: the search endpoint's response is the formatted result list
whatever the `addQuery` history write does — the write's failure is never
surfaced and never changes the response. -/
theorem search_endpoint_addquery_best_effort
    (results : List SearchResult)
    (o o' : Except String (Option Int)) :
    searchEndpoint (.ok results) o = .ok (results.map formatResult) ∧
    searchEndpoint (.ok results) o = searchEndpoint (.ok results) o' :=
  ⟨rfl, rfl⟩

/-! ## Analytics tables and their update operations (database_manager.py)

`DatabaseManager.execute` (lines 20-31) runs one SQL statement and commits
it on its own, so each statement is one atomic, immediately durable
transition on the store.  Timestamps (`NOW()`) are modelled as `Nat`
values passed in per statement. -/

/-- A `search_logs` row (the fields these claims touch). -/
structure SearchLogRow where
  id : Int
  clicked : Bool
deriving Repr, DecidableEq

/-- An `expert_searches` row. -/
structure ExpertSearchRow where
  search_id : Int
  expert_id : String
  rank_position : Int
  clicked : Bool
  click_timestamp : Option Nat
deriving Repr, DecidableEq

/-- A `search_sessions` row. -/
structure SearchSessionRow where
  id : Int
  user_id : String
  query_count : Int
  successful_searches : Int
  end_timestamp : Option Nat
deriving Repr, DecidableEq

/-- The store state touched by `record_click`. -/
structure AnalyticsState where
  search_logs : List SearchLogRow
  expert_searches : List ExpertSearchRow
deriving Repr, DecidableEq

/-- `UPDATE search_logs SET clicked = TRUE WHERE id = %s`
(lines 388-392). -/
def updateSearchLogsClicked (rows : List SearchLogRow) (search_id : Int) :
    List SearchLogRow :=
  rows.map fun r => if r.id = search_id then { r with clicked := true } else r

/-- `UPDATE expert_searches SET clicked = TRUE, click_timestamp = NOW()
WHERE search_id = %s AND expert_id = %s` (lines 396-401). -/
def updateExpertSearchClicked (rows : List ExpertSearchRow)
    (search_id : Int) (expert_id : String) (now : Nat) :
    List ExpertSearchRow :=
  rows.map fun r =>
    if r.search_id = search_id ∧ r.expert_id = expert_id then
      { r with clicked := true, click_timestamp := some now }
    else r

/-- `record_click` (lines 384-404): first UPDATE `search_logs` (committed
by `execute` on its own), then, when an expert id is given, UPDATE
`expert_searches`.  `attrUpdateFails` injects a failure of the second
statement; the `except` at line 402 logs and re-raises, with the first
statement's commit already durable. -/
def record_click (s : AnalyticsState) (search_id : Int)
    (expert_id : Option String) (now : Nat) (attrUpdateFails : Bool) :
    Except String Unit × AnalyticsState :=
  let s1 : AnalyticsState :=
    { s with search_logs := updateSearchLogsClicked s.search_logs search_id }
  match expert_id with
  | none => (.ok (), s1)
  | some eid =>
    if attrUpdateFails then (.error "Error recording click", s1)
    else (.ok (),
      { s1 with expert_searches :=
          updateExpertSearchClicked s1.expert_searches search_id eid now })

/-- `update_search_session` (lines 370-382): a single UPDATE statement
whose increments (`query_count = query_count + 1`, ...) are evaluated
server-side, so the whole read-modify-write is one atomic transition. -/
def update_search_session (rows : List SearchSessionRow) (session_id : Int)
    (successful : Bool) (now : Nat) : List SearchSessionRow :=
  rows.map fun r =>
    if r.id = session_id then
      { r with
        query_count := r.query_count + 1,
        successful_searches :=
          r.successful_searches + (if successful then 1 else 0),
        end_timestamp := some now }
    else r

/-- After the `expert_searches` UPDATE, every row matching the key has
`clicked = TRUE` and `click_timestamp` equal to that statement's time. -/
theorem updateExpertSearchClicked_post (rows : List ExpertSearchRow)
    (search_id : Int) (expert_id : String) (now : Nat) :
    ∀ r ∈ updateExpertSearchClicked rows search_id expert_id now,
      r.search_id = search_id → r.expert_id = expert_id →
      r.clicked = true ∧ r.click_timestamp = some now := by
  intro r hr hsid heid
  obtain ⟨r0, _, hr0⟩ := List.mem_map.mp hr
  by_cases hmatch : r0.search_id = search_id ∧ r0.expert_id = expert_id
  · rw [if_pos hmatch] at hr0
    subst hr0
    exact ⟨rfl, rfl⟩
  · rw [if_neg hmatch] at hr0
    subst hr0
    exact absurd ⟨hsid, heid⟩ hmatch

/-- The `expert_searches` UPDATE keeps a row for every row it had, with
the key fields unchanged. -/
theorem updateExpertSearchClicked_mem (rows : List ExpertSearchRow)
    (search_id : Int) (expert_id : String) (now : Nat)
    (r0 : ExpertSearchRow) (h0 : r0 ∈ rows) :
    ∃ r ∈ updateExpertSearchClicked rows search_id expert_id now,
      r.search_id = r0.search_id ∧ r.expert_id = r0.expert_id := by
  refine ⟨_, List.mem_map.mpr ⟨r0, h0, rfl⟩, ?_⟩
  by_cases hmatch : r0.search_id = search_id ∧ r0.expert_id = expert_id
  · rw [if_pos hmatch]
    exact ⟨rfl, rfl⟩
  · rw [if_neg hmatch]
    exact ⟨rfl, rfl⟩

/-- C8: two sequential successful `recordClick(searchId, expertId)` calls
both succeed; afterwards a row for the attribution key still exists, and
every row with that key has `clicked = true` and `click_timestamp` equal
to the second call's time — the second write overwrites the first
(last-write-wins). -/
theorem record_click_last_write_wins (s : AnalyticsState) (sid : Int)
    (eid : String) (t1 t2 : Nat)
    (hrow : ∃ r ∈ s.expert_searches,
      r.search_id = sid ∧ r.expert_id = eid) :
    (record_click s sid (some eid) t1 false).1 = .ok () ∧
    (record_click (record_click s sid (some eid) t1 false).2
        sid (some eid) t2 false).1 = .ok () ∧
    (∃ r ∈ (record_click (record_click s sid (some eid) t1 false).2
        sid (some eid) t2 false).2.expert_searches,
      r.search_id = sid ∧ r.expert_id = eid) ∧
    ∀ r ∈ (record_click (record_click s sid (some eid) t1 false).2
        sid (some eid) t2 false).2.expert_searches,
      r.search_id = sid → r.expert_id = eid →
      r.clicked = true ∧ r.click_timestamp = some t2 := by
  obtain ⟨r0, h0, hk0⟩ := hrow
  refine ⟨rfl, rfl, ?_, ?_⟩
  · obtain ⟨r1, h1, hk1⟩ :=
      updateExpertSearchClicked_mem s.expert_searches sid eid t1 r0 h0
    obtain ⟨r2, h2, hk2⟩ :=
      updateExpertSearchClicked_mem _ sid eid t2 r1 h1
    exact ⟨r2, h2, by rw [hk2.1, hk1.1, hk0.1], by rw [hk2.2, hk1.2, hk0.2]⟩
  · exact updateExpertSearchClicked_post _ sid eid t2

/-- C8 witness: a one-row attribution table clicked at times 10 then 20. -/
theorem record_click_last_write_wins_witness :
    (∃ r ∈ (⟨[⟨1, false⟩], [⟨1, "e1", 0, false, none⟩]⟩ :
        AnalyticsState).expert_searches,
      r.search_id = 1 ∧ r.expert_id = "e1") ∧
    ((record_click ⟨[⟨1, false⟩], [⟨1, "e1", 0, false, none⟩]⟩
        1 (some "e1") 10 false).1 = .ok () ∧
     (record_click (record_click
          ⟨[⟨1, false⟩], [⟨1, "e1", 0, false, none⟩]⟩
          1 (some "e1") 10 false).2 1 (some "e1") 20 false).1 = .ok () ∧
     (∃ r ∈ (record_click (record_click
          ⟨[⟨1, false⟩], [⟨1, "e1", 0, false, none⟩]⟩
          1 (some "e1") 10 false).2 1 (some "e1") 20
          false).2.expert_searches,
        r.search_id = 1 ∧ r.expert_id = "e1") ∧
     ∀ r ∈ (record_click (record_click
          ⟨[⟨1, false⟩], [⟨1, "e1", 0, false, none⟩]⟩
          1 (some "e1") 10 false).2 1 (some "e1") 20
          false).2.expert_searches,
        r.search_id = 1 → r.expert_id = "e1" →
        r.clicked = true ∧ r.click_timestamp = some 20) :=
  ⟨⟨⟨1, "e1", 0, false, none⟩, by decide, by decide, by decide⟩,
   record_click_last_write_wins ⟨[⟨1, false⟩], [⟨1, "e1", 0, false, none⟩]⟩
     1 "e1" 10 20
     ⟨⟨1, "e1", 0, false, none⟩, by decide, by decide, by decide⟩⟩

/-- C9: each `updateSearchSession` call is a single SQL UPDATE whose
increment is computed server-side (`query_count = query_count + 1`), so
it is one atomic read-modify-write on the store; an interleaving of two
concurrent calls for the same session is therefore one call followed by
the other, and in either order every row of that session ends with
`query_count` exactly 2 above its initial value — no increment is lost —
while rows of other sessions are untouched. -/
theorem update_search_session_no_lost_update
    (rows : List SearchSessionRow) (sid : Int) (t1 t2 : Nat) :
    List.Forall₂ (fun r r' =>
      (r.id = sid → r'.query_count = r.query_count + 2) ∧
      (r.id ≠ sid → r' = r))
      rows
      (update_search_session
        (update_search_session rows sid true t1) sid true t2) ∧
    List.Forall₂ (fun r r' =>
      (r.id = sid → r'.query_count = r.query_count + 2) ∧
      (r.id ≠ sid → r' = r))
      rows
      (update_search_session
        (update_search_session rows sid true t2) sid true t1) := by
  constructor <;>
  · unfold update_search_session
    rw [List.map_map]
    rw [List.forall₂_map_right_iff]
    apply List.forall₂_same.mpr
    intro r _
    constructor
    · intro hid
      simp only [Function.comp_apply, if_pos hid]
      omega
    · intro hid
      simp only [Function.comp_apply, if_neg hid]

/-- C10: with an expert id given, `record_click` is not atomic across its
two UPDATE statements: the `search_logs` UPDATE is committed by `execute`
before the `expert_searches` UPDATE runs, so when the latter fails the
call raises, yet the search row's `clicked` flag is already set and stays
set, and `expert_searches` is unchanged — state changed although the
operation failed. -/
theorem record_click_partial_commit (s : AnalyticsState) (sid : Int)
    (eid : String) (t : Nat)
    (hrow : ∃ r ∈ s.search_logs, r.id = sid) :
    (record_click s sid (some eid) t true).1
      = .error "Error recording click" ∧
    (∃ r ∈ (record_click s sid (some eid) t true).2.search_logs,
      r.id = sid ∧ r.clicked = true) ∧
    (record_click s sid (some eid) t true).2.expert_searches
      = s.expert_searches := by
  obtain ⟨r0, h0, hid⟩ := hrow
  refine ⟨rfl, ?_, rfl⟩
  refine ⟨_, List.mem_map.mpr ⟨r0, h0, rfl⟩, ?_⟩
  rw [if_pos hid]
  exact ⟨hid, rfl⟩

/-- C10 witness: a one-row search log whose attribution update fails. -/
theorem record_click_partial_commit_witness :
    (∃ r ∈ (⟨[⟨1, false⟩], []⟩ : AnalyticsState).search_logs, r.id = 1) ∧
    ((record_click ⟨[⟨1, false⟩], []⟩ 1 (some "e1") 10 true).1
        = .error "Error recording click" ∧
     (∃ r ∈ (record_click ⟨[⟨1, false⟩], []⟩ 1
          (some "e1") 10 true).2.search_logs,
        r.id = 1 ∧ r.clicked = true) ∧
     (record_click ⟨[⟨1, false⟩], []⟩ 1
          (some "e1") 10 true).2.expert_searches
        = (⟨[⟨1, false⟩], []⟩ : AnalyticsState).expert_searches) :=
  ⟨⟨⟨1, false⟩, by decide, by decide⟩,
   record_click_partial_commit ⟨[⟨1, false⟩], []⟩ 1 "e1" 10
     ⟨⟨1, false⟩, by decide, by decide⟩⟩

end AiServices
